import Mathlib

/-! go.atompub: feed lookup and entry insertion over a relational store

A shallow embedding of `src/atompub.go`.  The two HTTP handlers `getFeed` and
`addEntry`, and the helpers `appendEntries`, `insertEntry`, `findFeed`,
`insertFeed` and `genId`, are translated as functions that pass an explicit
`World`: the two database tables, the number of UUIDs drawn so far and the
outcomes the database driver will report for the coming statements.

What lies outside the file is taken as a parameter (`Env`): the entry decoder
`atom.DecodeEntry`, the random UUID source and the key constraints of the
tables.  XML marshalling is not modelled: a response carries the value that
is handed to the marshaller.
-/

namespace AtomPub

/-! ## Atom values (package `go.atom`, as far as the handlers use them) -/

/-- `atom.XMLTitle`: the `type` attribute is a `*string`. -/
structure XMLTitle where
  Type_ : Option String
  Raw : String
deriving DecidableEq, Repr

/-- `atom.XMLEntryContent`: the `type` attribute is a `*string`. -/
structure XMLEntryContent where
  Type_ : Option String
  Raw : String
deriving DecidableEq, Repr

/-- `atom.XMLEntry`: `Id`, `Title` and `Content` are pointers, so each may be nil. -/
structure XMLEntry where
  Id : Option String
  Title : Option XMLTitle
  Content : Option XMLEntryContent
deriving DecidableEq, Repr

/-- `atom.XMLFeed`, with the fields the handlers read or write. -/
structure XMLFeed where
  Id : Option String
  Title : Option XMLTitle
  Entries : List XMLEntry
  Namespace : Option String
deriving DecidableEq, Repr

/-! ## The store -/

/-- A row of `atom_feed (id, title)`. -/
structure FeedRow where
  id : String
  title : String
deriving DecidableEq, Repr

/-- A row of `atom_entry (id, feed_title, title, title_type, content, content_type)`.
The last four columns are nullable. -/
structure EntryRow where
  id : String
  feed_title : String
  title : Option String
  title_type : Option String
  content : Option String
  content_type : Option String
deriving DecidableEq, Repr

/-- The two tables, each in insertion order. -/
structure Store where
  atom_feed : List FeedRow
  atom_entry : List EntryRow
deriving DecidableEq, Repr

/-- Key constraints of the tables.  The DDL is not part of the source file, so
each constraint is a switch: an insert that breaks an enabled constraint is
refused by the database. -/
structure Schema where
  feedIdKey : Bool
  feedTitleUnique : Bool
  entryIdKey : Bool
deriving DecidableEq, Repr

/-- An error value as the handlers tell them apart: `sql.ErrNoRows` or anything else. -/
inductive DbErr where
  | ErrNoRows
  | other (msg : String)
deriving DecidableEq, Repr

/-- The text of `err.Error()`. -/
def DbErr.msg : DbErr → String
  | .ErrNoRows => "sql: no rows in result set"
  | .other m => m

/-- A failure the driver reports for one statement.  `onCall`: the statement
could not be issued (`db.Query` / `db.Exec` return an error, `row.Scan`
reports it for `db.QueryRow`).  `onRows`: the statement was issued and reading
its result rows failed (`rows.Scan` / `rows.Err`).  A failed statement changes
no table. -/
inductive Fault where
  | onCall (msg : String)
  | onRows (msg : String)
deriving DecidableEq, Repr

/-- The driver message of a fault. -/
def Fault.msg : Fault → String
  | .onCall m => m
  | .onRows m => m

/-- The state a request runs in: the tables, how many UUIDs have been drawn,
and the driver outcome of each coming statement (`none`: the statement is
answered; an exhausted list means every further statement is answered). -/
structure World where
  store : Store
  drawn : Nat
  faults : List (Option Fault)
deriving DecidableEq, Repr

/-- The driver outcome of the next statement, and the world after it is consumed. -/
def World.nextFault (w : World) : Option Fault × World :=
  match w.faults with
  | [] => (none, w)
  | f :: rest => (f, { w with faults := rest })

/-- The request body, as far as decoding looks at it: text that is not
well-formed XML (with the parser's message), or a well-formed `<entry>`
document with the elements it carries. -/
inductive Body where
  | malformed (parseError : String)
  | entry (doc : XMLEntry)
deriving DecidableEq, Repr

/-- What the source file imports: `atom.DecodeEntry`, the UUID source behind
`uuid.NewV4` (the n-th draw), and the key constraints of the tables. -/
structure Env where
  DecodeEntry : Body → Except String XMLEntry
  uuid : Nat → String
  schema : Schema

/-- How a helper call ends: a result, an `error` value, or a run-time panic
(a nil pointer dereference). -/
inductive Outcome (α : Type) where
  | ok (a : α)
  | err (e : DbErr)
  | panic
deriving DecidableEq, Repr

/-- What a handler leaves on the wire.  `text`: `r.Text(w, status, body)`.
`xml`: `r.XML(w, status, entry)`.  `feed`: the marshalled feed written with
the given content type (status 200).  `crash`: the handler panicked before
writing anything. -/
inductive Response where
  | text (status : Nat) (body : String)
  | xml (status : Nat) (entry : XMLEntry)
  | feed (status : Nat) (contentType : String) (feed : XMLFeed)
  | crash
deriving DecidableEq, Repr

/-- The status code of a response, when one was written. -/
def Response.status : Response → Option Nat
  | .text s _ => some s
  | .xml s _ => some s
  | .feed s _ _ => some s
  | .crash => none

/-! ## The helpers -/

/-- `genId`: `"urn:uuid:"` followed by a fresh UUID. -/
def genId (env : Env) (w : World) : String × World :=
  ("urn:uuid:" ++ env.uuid w.drawn, { w with drawn := w.drawn + 1 })

/-- `findFeed`: `select id from atom_feed where title = $1`, first row. -/
def findFeed (w : World) (title : String) : Except DbErr XMLFeed × World :=
  match w.nextFault with
  | (some f, w1) => (.error (.other f.msg), w1)
  | (none, w1) =>
    match w1.store.atom_feed.find? (fun r => r.title == title) with
    | none => (.error .ErrNoRows, w1)
    | some r =>
      (.ok { Id := some r.id, Title := some { Type_ := none, Raw := title },
             Entries := [], Namespace := none }, w1)

/-- Whether the database refuses a new `atom_feed` row. -/
def feedRowRefused (sc : Schema) (s : Store) (row : FeedRow) : Bool :=
  (sc.feedIdKey && s.atom_feed.any (fun r => r.id == row.id)) ||
  (sc.feedTitleUnique && s.atom_feed.any (fun r => r.title == row.title))

/-- Whether the database refuses a new `atom_entry` row. -/
def entryRowRefused (sc : Schema) (s : Store) (row : EntryRow) : Bool :=
  sc.entryIdKey && s.atom_entry.any (fun r => r.id == row.id)

/-- `insertFeed`: `insert into atom_feed (id, title) values ($1, $2)` with a
fresh id.  Returns the id and the error, as the Go function does. -/
def insertFeed (env : Env) (w : World) (title : String) : (String × Option DbErr) × World :=
  match genId env w with
  | (id, w1) =>
    match w1.nextFault with
    | (some f, w2) => ((id, some (.other f.msg)), w2)
    | (none, w2) =>
      if feedRowRefused env.schema w2.store { id := id, title := title } then
        ((id, some (.other "pq: duplicate key value violates unique constraint")), w2)
      else
        ((id, none),
          { w2 with store :=
              { w2.store with atom_feed := w2.store.atom_feed ++ [{ id := id, title := title }] } })

/-- Lines 127-143 of `insertEntry`: draw the id, read the two types (a nil
`Title` or `Content` panics there) and insert the `atom_entry` row. -/
def saveEntry (env : Env) (w : World) (entry : XMLEntry) (feedTitle : String) :
    Outcome Unit × World :=
  match genId env w with
  | (id, w1) =>
    match entry.Title with
    | none => (.panic, w1)
    | some t =>
      let titleType := match t.Type_ with
        | some ty => ty
        | none => "text"
      match entry.Content with
      | none => (.panic, w1)
      | some c =>
        let contentType := match c.Type_ with
          | some ty => ty
          | none => "text"
        let row : EntryRow :=
          { id := id, feed_title := feedTitle, title := some t.Raw, title_type := some titleType,
            content := some c.Raw, content_type := some contentType }
        match w1.nextFault with
        | (some f, w2) => (.err (.other f.msg), w2)
        | (none, w2) =>
          if entryRowRefused env.schema w2.store row then
            (.err (.other "pq: duplicate key value violates unique constraint"), w2)
          else
            (.ok (), { w2 with store := { w2.store with atom_entry := w2.store.atom_entry ++ [row] } })

/-- `insertEntry`: look the feed up, create it when the lookup reports
`sql.ErrNoRows`, then save the entry. -/
def insertEntry (env : Env) (w : World) (entry : XMLEntry) (feedTitle : String) :
    Outcome Unit × World :=
  match findFeed w feedTitle with
  | (.error .ErrNoRows, w1) =>
    match insertFeed env w1 feedTitle with
    | ((_, some e), w2) => (.err e, w2)
    | ((_, none), w2) => saveEntry env w2 entry feedTitle
  | (.error e, w1) => (.err e, w1)
  | (.ok _, w1) => saveEntry env w1 entry feedTitle

/-- The loop of `appendEntries`: scan `id, title, content` of each row into
strings; a NULL `title` or `content` makes `rows.Scan` fail. -/
def scanRows : List EntryRow → Except DbErr (List XMLEntry)
  | [] => .ok []
  | r :: rest =>
    match r.title, r.content with
    | some title, some content =>
      match scanRows rest with
      | .ok entries =>
        .ok ({ Id := some r.id, Title := some { Type_ := none, Raw := title },
               Content := some { Type_ := none, Raw := content } } :: entries)
      | .error e => .error e
    | _, _ => .error (.other "sql: Scan error: converting NULL to string is unsupported")

/-- `appendEntries`: `select id, title, content from atom_entry where
feed_title = $1`.  `defer rows.Close()` is registered before the error of
`db.Query` is looked at: when `db.Query` fails, `rows` is nil and the deferred
call panics on it. -/
def appendEntries (w : World) (feed : XMLFeed) : Outcome XMLFeed × World :=
  match feed.Title with
  | none => (.panic, w)
  | some t =>
    match w.nextFault with
    | (some (.onCall _), w1) => (.panic, w1)
    | (some (.onRows m), w1) => (.err (.other m), w1)
    | (none, w1) =>
      match scanRows (w1.store.atom_entry.filter (fun r => r.feed_title == t.Raw)) with
      | .error e => (.err e, w1)
      | .ok entries => (.ok { feed with Entries := entries }, w1)

/-! ## The handlers -/

/-- The content type `getFeed` sets on success. -/
def feedContentType : String := "application/atom+xml; type=feed;charset=UTF-8"

/-- The namespace `getFeed` sets on the feed before marshalling. -/
def atomNamespace : String := "http://www.w3.org/2005/Atom"

/-- `getFeed`, for the route variable `feed`. -/
def getFeed (w : World) (feedTitle : String) : Response × World :=
  match findFeed w feedTitle with
  | (.error .ErrNoRows, w1) => (.text 404 "No such feed", w1)
  | (.error e, w1) => (.text 500 ("Failed to get feed: " ++ e.msg), w1)
  | (.ok feed, w1) =>
    match appendEntries w1 feed with
    | (.panic, w2) => (.crash, w2)
    | (.err e, w2) => (.text 500 ("Failed to construct feed: " ++ e.msg), w2)
    | (.ok feed1, w2) =>
      (.feed 200 feedContentType { feed1 with Namespace := some atomNamespace }, w2)

/-- `addEntry`, for the route variable `feed` and the request body. -/
def addEntry (env : Env) (w : World) (feedTitle : String) (body : Body) : Response × World :=
  match env.DecodeEntry body with
  | .error e => (.text 400 ("could not parse xml: " ++ e), w)
  | .ok entry =>
    match insertEntry env w entry feedTitle with
    | (.err e, w1) => (.text 500 ("failed to save entry: " ++ e.msg), w1)
    | (.panic, w1) => (.crash, w1)
    | (.ok _, w1) => (.xml 201 entry, w1)

/-! ## Sequences of requests -/

/-- One request to the server. -/
inductive Call where
  | get (feedTitle : String)
  | add (feedTitle : String) (body : Body)
deriving DecidableEq, Repr

/-- Serve one request. -/
def runCall (env : Env) (w : World) : Call → Response × World
  | .get feedTitle => getFeed w feedTitle
  | .add feedTitle body => addEntry env w feedTitle body

/-- Serve requests one after the other; the responses are in request order. -/
def runCalls (env : Env) (w : World) : List Call → List Response × World
  | [] => ([], w)
  | c :: rest =>
    match runCall env w c with
    | (r, w1) =>
      match runCalls env w1 rest with
      | (rs, w2) => (r :: rs, w2)

/-- The `atom_feed` rows with the given title. -/
def feedRows (s : Store) (title : String) : List FeedRow :=
  s.atom_feed.filter (fun r => r.title == title)

/-- The `atom_entry` rows of the given feed title. -/
def entryRows (s : Store) (title : String) : List EntryRow :=
  s.atom_entry.filter (fun r => r.feed_title == title)

/-- At most one `atom_feed` row per title. -/
def TitlesUnique (s : Store) : Prop :=
  ∀ title, (feedRows s title).length ≤ 1

/-- The next `k` statements are answered by the database. -/
def World.answered (w : World) (k : Nat) : Prop :=
  ∀ f ∈ w.faults.take k, f = none

instance (w : World) (k : Nat) : Decidable (w.answered k) := by
  unfold World.answered; infer_instance

/-- A response is the `201` echo of some entry. -/
def Response.created : Response → Bool
  | .xml 201 _ => true
  | _ => false

/-- The entry row `insertEntry` writes for feed title `ft`, title `t`, content `c`. -/
def savedRow (id feedTitle : String) (t : XMLTitle) (c : XMLEntryContent) : EntryRow :=
  { id := id, feed_title := feedTitle,
    title := some t.Raw, title_type := some (t.Type_.getD "text"),
    content := some c.Raw, content_type := some (c.Type_.getD "text") }

/-- One entry that an `addEntry` call persisted: the generated id with the
decoded title and content. -/
structure Inserted where
  id : String
  title : XMLTitle
  content : XMLEntryContent
deriving DecidableEq, Repr

/-- The `atom_entry` row written for an inserted entry. -/
def Inserted.row (feedTitle : String) (i : Inserted) : EntryRow :=
  savedRow i.id feedTitle i.title i.content

/-- The entry `appendEntries` builds for an inserted entry: id and the two raw
texts, no `type` on either element. -/
def Inserted.listed (i : Inserted) : XMLEntry :=
  { Id := some i.id, Title := some { Type_ := none, Raw := i.title.Raw },
    Content := some { Type_ := none, Raw := i.content.Raw } }

/-- The request body decodes to an entry with this title and content. -/
def Inserted.decodedFrom (env : Env) (b : Body) (i : Inserted) : Prop :=
  ∃ e, env.DecodeEntry b = .ok e ∧ e.Title = some i.title ∧ e.Content = some i.content

/-- The entries of a feed response (none for any other response). -/
def Response.entries : Response → List XMLEntry
  | .feed _ _ f => f.Entries
  | _ => []

/-- A listed entry matches a persisted row in id, title raw text, content raw
text, title type and content type. -/
def matchesRow (x : XMLEntry) (r : EntryRow) : Bool :=
  x.Id == some r.id &&
  x.Title.map (fun t => t.Raw) == r.title &&
  x.Content.map (fun c => c.Raw) == r.content &&
  x.Title.bind (fun t => t.Type_) == r.title_type &&
  x.Content.bind (fun c => c.Type_) == r.content_type

/-! ## Concurrent `addEntry` requests

Each database statement is atomic; between two statements of one request the
statements of another may run.  A request in flight is a task that remembers
where it stands in `addEntry` / `insertEntry`. -/

/-- Where an `addEntry` request stands. -/
inductive AddTask where
  | begin (feedTitle : String) (body : Body)
  | feedMissing (entry : XMLEntry) (feedTitle : String)
  | feedReady (entry : XMLEntry) (feedTitle : String)
  | finished (resp : Response)
deriving DecidableEq, Repr

/-- Run a task up to and including its next database statement.
`begin`: decode the body and run `findFeed`.  `feedMissing`: `findFeed`
reported `sql.ErrNoRows`, run `insertFeed`.  `feedReady`: save the entry and
respond. -/
def AddTask.step (env : Env) (w : World) : AddTask → AddTask × World
  | .begin feedTitle body =>
    match env.DecodeEntry body with
    | .error e => (.finished (.text 400 ("could not parse xml: " ++ e)), w)
    | .ok entry =>
      match findFeed w feedTitle with
      | (.error .ErrNoRows, w1) => (.feedMissing entry feedTitle, w1)
      | (.error e, w1) => (.finished (.text 500 ("failed to save entry: " ++ e.msg)), w1)
      | (.ok _, w1) => (.feedReady entry feedTitle, w1)
  | .feedMissing entry feedTitle =>
    match insertFeed env w feedTitle with
    | ((_, some e), w1) => (.finished (.text 500 ("failed to save entry: " ++ e.msg)), w1)
    | ((_, none), w1) => (.feedReady entry feedTitle, w1)
  | .feedReady entry feedTitle =>
    match saveEntry env w entry feedTitle with
    | (.err e, w1) => (.finished (.text 500 ("failed to save entry: " ++ e.msg)), w1)
    | (.panic, w1) => (.finished .crash, w1)
    | (.ok _, w1) => (.finished (.xml 201 entry), w1)
  | .finished resp => (.finished resp, w)

/-- Run one task for `n` steps without interruption. -/
def AddTask.run (env : Env) : Nat → World → AddTask → AddTask × World
  | 0, w, t => (t, w)
  | n + 1, w, t =>
    match t.step env w with
    | (t1, w1) => AddTask.run env n w1 t1

/-- Two requests in flight under a schedule: `false` lets the first take its
next step, `true` the second. -/
def interleave (env : Env) : List Bool → World → AddTask → AddTask → (AddTask × AddTask) × World
  | [], w, a, b => ((a, b), w)
  | false :: rest, w, a, b =>
    match a.step env w with
    | (a1, w1) => interleave env rest w1 a1 b
  | true :: rest, w, a, b =>
    match b.step env w with
    | (b1, w1) => interleave env rest w1 a b1

/-! ## The decoder of the specification -/

/-- Modelled from the spec: `atom.DecodeEntry` of package
`github.com/ironcamel/go.atom`, which `addEntry` calls and the source file
does not contain.  Section 4.3 of the specification: the document must be
well-formed, it must carry a `title` element and a `content` element with
non-empty raw text, and a `type` attribute that is absent is decoded as
`"text"`; any other document yields a decode error. -/
def DecodeEntry : Body → Except String XMLEntry
  | .malformed parseError => .error parseError
  | .entry doc =>
    match doc.Title, doc.Content with
    | some t, some c =>
      if t.Raw = "" ∨ c.Raw = "" then .error "empty required element"
      else
        .ok { Id := doc.Id,
              Title := some { Type_ := some (t.Type_.getD "text"), Raw := t.Raw },
              Content := some { Type_ := some (c.Type_.getD "text"), Raw := c.Raw } }
    | _, _ => .error "missing required element"

/-- An environment for examples: the decoder of the specification, UUIDs
`u0, u1, ...`, and the key constraints all switched to `keys`. -/
def exampleEnv (keys : Bool) : Env :=
  { DecodeEntry := DecodeEntry,
    uuid := fun n => "u" ++ toString n,
    schema := { feedIdKey := keys, feedTitleUnique := keys, entryIdKey := keys } }

/-- A well-formed entry document without id: title "Hello" of type "html",
content "World" without a type. -/
def helloBody : Body :=
  .entry { Id := none, Title := some { Type_ := some "html", Raw := "Hello" },
           Content := some { Type_ := none, Raw := "World" } }

/-- A second well-formed entry document. -/
def byeBody : Body :=
  .entry { Id := none, Title := some { Type_ := none, Raw := "Bye" },
           Content := some { Type_ := none, Raw := "Moon" } }

/-- The empty database with every statement answered. -/
def emptyWorld : World :=
  { store := { atom_feed := [], atom_entry := [] }, drawn := 0, faults := [] }

/-- The empty database, where the third statement to come fails. -/
def flakyWorld : World :=
  { emptyWorld with faults := [none, none, some (.onCall "connection reset")] }

/-- A database holding the feed "tech" with one entry. -/
def techWorld : World :=
  { store :=
      { atom_feed := [{ id := "urn:uuid:f1", title := "tech" }],
        atom_entry :=
          [{ id := "urn:uuid:e1", feed_title := "tech", title := some "Hello",
             title_type := some "text", content := some "World", content_type := some "text" }] },
    drawn := 0, faults := [] }

/-- A decoder that checks well-formedness only and returns the elements of the
document as they are, for contrast with `DecodeEntry`. -/
def lenientDecode : Body → Except String XMLEntry
  | .malformed parseError => .error parseError
  | .entry doc => .ok doc

/-! ## Facts about the helpers and the handlers -/

theorem nextFault_store (w : World) : w.nextFault.2.store = w.store := by
  unfold World.nextFault; split <;> rfl

theorem nextFault_drawn (w : World) : w.nextFault.2.drawn = w.drawn := by
  unfold World.nextFault; split <;> rfl

theorem nextFault_of_answered (w : World) (h : w.answered 1) : w.nextFault.1 = none := by
  unfold World.answered at h
  unfold World.nextFault
  split
  · rfl
  · rename_i f rest hf
    exact h f (by simp [hf])

theorem findFeed_store (w : World) (title : String) : (findFeed w title).2.store = w.store := by
  have h := nextFault_store w
  unfold findFeed
  split
  · rename_i f w1 heq
    rw [heq] at h; exact h
  · rename_i w1 heq
    rw [heq] at h
    split <;> exact h

theorem findFeed_drawn (w : World) (title : String) : (findFeed w title).2.drawn = w.drawn := by
  have h := nextFault_drawn w
  unfold findFeed
  split
  · rename_i f w1 heq
    rw [heq] at h; exact h
  · rename_i w1 heq
    rw [heq] at h
    split <;> exact h

theorem findFeed_noRows_absent (w : World) (title : String)
    (h : (findFeed w title).1 = .error .ErrNoRows) :
    ∀ r ∈ w.store.atom_feed, r.title ≠ title := by
  have hs := nextFault_store w
  unfold findFeed at h
  split at h
  · simp at h
  · rename_i w1 heq
    rw [heq] at hs
    simp only at hs
    split at h
    · rename_i hfind
      rw [hs] at hfind
      intro r hr
      have := List.find?_eq_none.mp hfind r hr
      simpa using this
    · simp at h

theorem findFeed_absent (w : World) (title : String)
    (habsent : ∀ r ∈ w.store.atom_feed, r.title ≠ title) (hup : w.answered 1) :
    (findFeed w title).1 = .error .ErrNoRows := by
  have hs := nextFault_store w
  have hf := nextFault_of_answered w hup
  unfold findFeed
  split
  · rename_i f w1 heq
    rw [heq] at hf; simp at hf
  · rename_i w1 heq
    rw [heq] at hs
    simp only at hs
    have hfind : w1.store.atom_feed.find? (fun r => r.title == title) = none := by
      rw [hs, List.find?_eq_none]
      intro r hr
      simpa using habsent r hr
    rw [hfind]

theorem appendEntries_store (w : World) (feed : XMLFeed) :
    (appendEntries w feed).2.store = w.store := by
  have h := nextFault_store w
  unfold appendEntries
  split
  · rfl
  · split
    · rename_i heq; rw [heq] at h; exact h
    · rename_i heq; rw [heq] at h; exact h
    · rename_i heq; rw [heq] at h
      split <;> exact h

theorem appendEntries_drawn (w : World) (feed : XMLFeed) :
    (appendEntries w feed).2.drawn = w.drawn := by
  have h := nextFault_drawn w
  unfold appendEntries
  split
  · rfl
  · split
    · rename_i heq; rw [heq] at h; exact h
    · rename_i heq; rw [heq] at h; exact h
    · rename_i heq; rw [heq] at h
      split <;> exact h

theorem getFeed_store (w : World) (title : String) : (getFeed w title).2.store = w.store := by
  have h := findFeed_store w title
  unfold getFeed
  split
  · rename_i heq; rw [heq] at h; exact h
  · rename_i heq; rw [heq] at h; exact h
  · rename_i feed w1 heq
    rw [heq] at h
    have h2 := appendEntries_store w1 feed
    split <;> (rename_i heq2; rw [heq2] at h2; exact h2.trans h)

theorem getFeed_drawn (w : World) (title : String) : (getFeed w title).2.drawn = w.drawn := by
  have h := findFeed_drawn w title
  unfold getFeed
  split
  · rename_i heq; rw [heq] at h; exact h
  · rename_i heq; rw [heq] at h; exact h
  · rename_i feed w1 heq
    rw [heq] at h
    have h2 := appendEntries_drawn w1 feed
    split <;> (rename_i heq2; rw [heq2] at h2; exact h2.trans h)

/-- What `insertFeed` does to the world: one id is drawn, `atom_entry` is
untouched, and `atom_feed` gains the row exactly when no error is returned. -/
theorem insertFeed_spec (env : Env) (w : World) (title : String) :
    (insertFeed env w title).2.drawn = w.drawn + 1 ∧
    (insertFeed env w title).2.store.atom_entry = w.store.atom_entry ∧
    (((insertFeed env w title).1.2 ≠ none ∧
        (insertFeed env w title).2.store.atom_feed = w.store.atom_feed) ∨
     ((insertFeed env w title).1.2 = none ∧
        (insertFeed env w title).2.store.atom_feed =
          w.store.atom_feed ++ [{ id := "urn:uuid:" ++ env.uuid w.drawn, title := title }])) := by
  have hs := nextFault_store (genId env w).2
  have hd := nextFault_drawn (genId env w).2
  unfold insertFeed
  simp only [genId] at hs hd ⊢
  split
  · rename_i heq; rw [heq] at hs hd
    simp only at hs hd
    simp [hs, hd]
  · rename_i heq; rw [heq] at hs hd
    simp only at hs hd
    split
    · simp [hs, hd]
    · simp [hs, hd]

/-- The row `saveEntry` inserts for a title `t` and a content `c`. -/
theorem saveEntry_spec (env : Env) (w : World) (entry : XMLEntry) (feedTitle : String) :
    (saveEntry env w entry feedTitle).2.drawn = w.drawn + 1 ∧
    (saveEntry env w entry feedTitle).2.store.atom_feed = w.store.atom_feed ∧
    (((saveEntry env w entry feedTitle).1 ≠ .ok () ∧
        (saveEntry env w entry feedTitle).2.store.atom_entry = w.store.atom_entry) ∨
     ((saveEntry env w entry feedTitle).1 = .ok () ∧
        ∃ t c, entry.Title = some t ∧ entry.Content = some c ∧
          (saveEntry env w entry feedTitle).2.store.atom_entry = w.store.atom_entry ++
            [{ id := "urn:uuid:" ++ env.uuid w.drawn, feed_title := feedTitle,
               title := some t.Raw, title_type := some (t.Type_.getD "text"),
               content := some c.Raw, content_type := some (c.Type_.getD "text") }])) := by
  have hs := nextFault_store (genId env w).2
  have hd := nextFault_drawn (genId env w).2
  unfold saveEntry
  simp only [genId] at hs hd ⊢
  split
  · simp
  · rename_i t ht
    split
    · simp
    · rename_i c hc
      split
      · rename_i heq; rw [heq] at hs hd
        simp only at hs hd
        simp [hs, hd]
      · rename_i heq; rw [heq] at hs hd
        simp only at hs hd
        split
        · simp [hs, hd]
        · refine ⟨by simp [hd], by simp [hs], Or.inr ⟨rfl, t, c, ht, hc, ?_⟩⟩
          simp only [hs]
          cases t.Type_ <;> cases c.Type_ <;> rfl

theorem findFeed_ok_present (w : World) (title : String) (feed : XMLFeed)
    (h : (findFeed w title).1 = .ok feed) :
    ∃ r ∈ w.store.atom_feed, r.title = title := by
  have hs := nextFault_store w
  unfold findFeed at h
  split at h
  · simp at h
  · rename_i w1 heq
    rw [heq] at hs
    simp only at hs
    split at h
    · simp at h
    · rename_i r hfind
      rw [hs] at hfind
      exact ⟨r, List.mem_of_find?_eq_some hfind, by simpa using List.find?_some hfind⟩

/-- What `insertEntry` does to the two tables. -/
theorem insertEntry_spec (env : Env) (w : World) (entry : XMLEntry) (feedTitle : String) :
    ((insertEntry env w entry feedTitle).2.store.atom_feed = w.store.atom_feed ∨
      ((∀ r ∈ w.store.atom_feed, r.title ≠ feedTitle) ∧
        (insertEntry env w entry feedTitle).2.store.atom_feed =
          w.store.atom_feed ++ [{ id := "urn:uuid:" ++ env.uuid w.drawn, title := feedTitle }])) ∧
    (((insertEntry env w entry feedTitle).1 ≠ .ok () ∧
        (insertEntry env w entry feedTitle).2.store.atom_entry = w.store.atom_entry) ∨
     ((insertEntry env w entry feedTitle).1 = .ok () ∧
        (∃ r ∈ (insertEntry env w entry feedTitle).2.store.atom_feed, r.title = feedTitle) ∧
        ∃ t c, entry.Title = some t ∧ entry.Content = some c ∧
          (insertEntry env w entry feedTitle).2.store.atom_entry = w.store.atom_entry ++
            [savedRow ("urn:uuid:" ++ env.uuid ((insertEntry env w entry feedTitle).2.drawn - 1))
              feedTitle t c])) := by
  have hfs := findFeed_store w feedTitle
  have hfd := findFeed_drawn w feedTitle
  unfold insertEntry
  split
  · rename_i w1 heq
    have habs := findFeed_noRows_absent w feedTitle (by rw [heq])
    rw [heq] at hfs hfd
    simp only at hfs hfd
    obtain ⟨hid, hie, hif⟩ := insertFeed_spec env w1 feedTitle
    split
    · rename_i e w2 heq2
      rw [heq2] at hid hie hif
      simp only at hid hie hif
      rcases hif with ⟨_, hif⟩ | ⟨hif, _⟩
      · exact ⟨Or.inl (by rw [hif, hfs]), Or.inl ⟨by simp, by rw [hie, hfs]⟩⟩
      · simp at hif
    · rename_i w2 heq2
      rw [heq2] at hid hie hif
      simp only at hid hie hif
      rcases hif with ⟨hif, _⟩ | ⟨_, hif⟩
      · simp at hif
      · obtain ⟨hsd, hsf, hse⟩ := saveEntry_spec env w2 entry feedTitle
        refine ⟨Or.inr ⟨habs, by rw [hsf, hif, hfs, hfd]⟩, ?_⟩
        rcases hse with ⟨hne, hse⟩ | ⟨hok, t, c, ht, hc, hse⟩
        · exact Or.inl ⟨hne, by rw [hse, hie, hfs]⟩
        · refine Or.inr ⟨hok, ⟨⟨"urn:uuid:" ++ env.uuid w1.drawn, feedTitle⟩, ?_, rfl⟩,
            t, c, ht, hc, ?_⟩
          · rw [hsf, hif]; simp
          · rw [hse, hsd, hie, hfs]; rfl
  · rename_i e w1 hne heq
    rw [heq] at hfs
    simp only at hfs
    exact ⟨Or.inl (by rw [hfs]), Or.inl ⟨by simp, by rw [hfs]⟩⟩
  · rename_i feed w1 heq
    obtain ⟨r, hr, hrt⟩ := findFeed_ok_present w feedTitle feed (by rw [heq])
    rw [heq] at hfs hfd
    simp only at hfs hfd
    obtain ⟨hsd, hsf, hse⟩ := saveEntry_spec env w1 entry feedTitle
    refine ⟨Or.inl (by rw [hsf, hfs]), ?_⟩
    rcases hse with ⟨hne, hse⟩ | ⟨hok, t, c, ht, hc, hse⟩
    · exact Or.inl ⟨hne, by rw [hse, hfs]⟩
    · refine Or.inr ⟨hok, ⟨r, ?_, hrt⟩, t, c, ht, hc, ?_⟩
      · rw [hsf, hfs]; exact hr
      · rw [hse, hsd, hfs]; rfl

/-- A body the decoder rejects: status 400, and the world is left as it was. -/
theorem addEntry_rejected (env : Env) (w : World) (feedTitle : String) (body : Body)
    (msg : String) (hrej : env.DecodeEntry body = .error msg) :
    (addEntry env w feedTitle body).1 = .text 400 ("could not parse xml: " ++ msg) ∧
    (addEntry env w feedTitle body).2 = w := by
  unfold addEntry
  rw [hrej]
  exact ⟨rfl, rfl⟩

/-- What a call of `addEntry` that gets past decoding does: it runs
`insertEntry` on the decoded entry, and the response is read off its outcome. -/
theorem addEntry_decoded (env : Env) (w : World) (feedTitle : String) (body : Body)
    (entry : XMLEntry) (hdec : env.DecodeEntry body = .ok entry) :
    (addEntry env w feedTitle body).2 = (insertEntry env w entry feedTitle).2 ∧
    (addEntry env w feedTitle body).1 =
      (match (insertEntry env w entry feedTitle).1 with
        | .err e => .text 500 ("failed to save entry: " ++ e.msg)
        | .panic => .crash
        | .ok _ => .xml 201 entry) := by
  unfold addEntry
  rw [hdec]
  simp only
  split <;> (rename_i heq; rw [heq]; exact ⟨rfl, rfl⟩)

/-- A `201` response comes from a decoded entry on which `insertEntry` succeeded. -/
theorem addEntry_created_inv (env : Env) (w : World) (feedTitle : String) (body : Body)
    (status : Nat) (e : XMLEntry) (hok : (addEntry env w feedTitle body).1 = .xml status e) :
    status = 201 ∧ env.DecodeEntry body = .ok e ∧
    (insertEntry env w e feedTitle).1 = .ok () ∧
    (addEntry env w feedTitle body).2 = (insertEntry env w e feedTitle).2 := by
  cases hdec : env.DecodeEntry body with
  | error m =>
    rw [(addEntry_rejected env w feedTitle body m hdec).1] at hok
    simp at hok
  | ok entry =>
    obtain ⟨hw, hr⟩ := addEntry_decoded env w feedTitle body entry hdec
    rw [hr] at hok
    split at hok
    · simp at hok
    · simp at hok
    · rename_i u heq
      simp only [Response.xml.injEq] at hok
      obtain ⟨hs, he⟩ := hok
      subst he
      exact ⟨hs.symm, rfl, heq, hw⟩

/-- A `201` response echoes the decoded entry, and the call appended the row
with the last id drawn. -/
theorem addEntry_created_row (env : Env) (w : World) (feedTitle : String) (body : Body)
    (status : Nat) (e : XMLEntry) (hok : (addEntry env w feedTitle body).1 = .xml status e) :
    status = 201 ∧ env.DecodeEntry body = .ok e ∧
    ∃ t c, e.Title = some t ∧ e.Content = some c ∧
      (addEntry env w feedTitle body).2.store.atom_entry = w.store.atom_entry ++
        [savedRow ("urn:uuid:" ++ env.uuid ((addEntry env w feedTitle body).2.drawn - 1))
          feedTitle t c] := by
  obtain ⟨hs, hdec, hins, hw⟩ := addEntry_created_inv env w feedTitle body status e hok
  refine ⟨hs, hdec, ?_⟩
  rcases (insertEntry_spec env w e feedTitle).2 with ⟨hne, _⟩ | ⟨_, _, t, c, ht, hc, hrows⟩
  · exact absurd hins hne
  · exact ⟨t, c, ht, hc, by rw [hw]; exact hrows⟩

/-- What `addEntry` does to `atom_feed`, whatever its response. -/
theorem addEntry_feeds (env : Env) (w : World) (feedTitle : String) (body : Body) :
    (addEntry env w feedTitle body).2.store.atom_feed = w.store.atom_feed ∨
      ((∀ r ∈ w.store.atom_feed, r.title ≠ feedTitle) ∧
        ∃ id, (addEntry env w feedTitle body).2.store.atom_feed =
          w.store.atom_feed ++ [{ id := id, title := feedTitle }]) := by
  cases hdec : env.DecodeEntry body with
  | error m =>
    rw [(addEntry_rejected env w feedTitle body m hdec).2]
    exact Or.inl rfl
  | ok entry =>
    rw [(addEntry_decoded env w feedTitle body entry hdec).1]
    rcases (insertEntry_spec env w entry feedTitle).1 with hsame | ⟨habs, hnew⟩
    · exact Or.inl hsame
    · exact Or.inr ⟨habs, _, hnew⟩

theorem feedRows_eq_nil_of_absent (s : Store) (title : String)
    (habs : ∀ r ∈ s.atom_feed, r.title ≠ title) : feedRows s title = [] := by
  unfold feedRows
  rw [List.filter_eq_nil_iff]
  intro r hr
  simpa using habs r hr

theorem absent_of_feedRows_eq_nil (s : Store) (title : String)
    (h : feedRows s title = []) : ∀ r ∈ s.atom_feed, r.title ≠ title := by
  unfold feedRows at h
  rw [List.filter_eq_nil_iff] at h
  intro r hr
  simpa using h r hr

/-- The rows of one title after a call of `addEntry`: unchanged, or one row
more when the call was for this title and the title had no row. -/
theorem addEntry_feedRows (env : Env) (w : World) (feedTitle : String) (body : Body)
    (title : String) :
    feedRows (addEntry env w feedTitle body).2.store title = feedRows w.store title ∨
      (title = feedTitle ∧ feedRows w.store title = [] ∧
        ∃ id, feedRows (addEntry env w feedTitle body).2.store title =
          [{ id := id, title := feedTitle }]) := by
  rcases addEntry_feeds env w feedTitle body with hsame | ⟨habs, id, hnew⟩
  · left; unfold feedRows; rw [hsame]
  · by_cases ht : title = feedTitle
    · subst ht
      have hnil := feedRows_eq_nil_of_absent w.store title habs
      refine Or.inr ⟨rfl, hnil, id, ?_⟩
      unfold feedRows at hnil ⊢
      rw [hnew, List.filter_append, hnil]
      simp
    · left
      unfold feedRows
      rw [hnew, List.filter_append]
      have : (feedTitle == title) = false := by
        simpa using fun h => ht h.symm
      simp [List.filter_cons, this]

theorem runCall_titlesUnique (env : Env) (w : World) (c : Call) (hinv : TitlesUnique w.store) :
    TitlesUnique (runCall env w c).2.store := by
  cases c with
  | get feedTitle =>
    simp only [runCall]
    rw [getFeed_store]; exact hinv
  | add feedTitle body =>
    simp only [runCall]
    intro title
    rcases addEntry_feedRows env w feedTitle body title with hsame | ⟨_, _, id, hnew⟩
    · rw [hsame]; exact hinv title
    · rw [hnew]; simp

theorem runCalls_cons (env : Env) (w : World) (c : Call) (rest : List Call) :
    runCalls env w (c :: rest) =
      ((runCall env w c).1 :: (runCalls env (runCall env w c).2 rest).1,
        (runCalls env (runCall env w c).2 rest).2) := rfl

theorem runCalls_titlesUnique (env : Env) (calls : List Call) :
    ∀ w : World, TitlesUnique w.store → TitlesUnique (runCalls env w calls).2.store := by
  induction calls with
  | nil => intro w h; exact h
  | cons c rest ih =>
    intro w h
    rw [runCalls_cons]
    exact ih _ (runCall_titlesUnique env w c h)

/-- Once a title has exactly one row, further `addEntry` calls on it keep it so. -/
theorem runCalls_add_keeps_one (env : Env) (feedTitle : String) (bodies : List Body) :
    ∀ w : World, (feedRows w.store feedTitle).length = 1 →
      (feedRows (runCalls env w (bodies.map (Call.add feedTitle))).2.store feedTitle).length = 1 := by
  induction bodies with
  | nil => intro w h; exact h
  | cons b rest ih =>
    intro w h
    rw [List.map_cons, runCalls_cons]
    apply ih
    simp only [runCall]
    rcases addEntry_feedRows env w feedTitle b feedTitle with hsame | ⟨_, hnil, _⟩
    · rw [hsame]; exact h
    · rw [hnil] at h; simp at h

/-- A successful `addEntry` leaves a row for its title in `atom_feed`. -/
theorem addEntry_created_feed_present (env : Env) (w : World) (feedTitle : String) (body : Body)
    (hok : (addEntry env w feedTitle body).1.created = true) :
    ∃ r ∈ (addEntry env w feedTitle body).2.store.atom_feed, r.title = feedTitle := by
  cases hresp : (addEntry env w feedTitle body).1 with
  | xml status e =>
    obtain ⟨_, _, hins, hw⟩ := addEntry_created_inv env w feedTitle body status e hresp
    rw [hw]
    rcases (insertEntry_spec env w e feedTitle).2 with ⟨hne, _⟩ | ⟨_, hpres, _⟩
    · exact absurd hins hne
    · exact hpres
  | text s m => rw [hresp] at hok; simp [Response.created] at hok
  | feed s ct f => rw [hresp] at hok; simp [Response.created] at hok
  | crash => rw [hresp] at hok; simp [Response.created] at hok

/-- The first successful `addEntry` on a title without a row creates exactly one. -/
theorem addEntry_created_first (env : Env) (w : World) (feedTitle : String) (body : Body)
    (habs : ∀ r ∈ w.store.atom_feed, r.title ≠ feedTitle)
    (hok : (addEntry env w feedTitle body).1.created = true) :
    (feedRows (addEntry env w feedTitle body).2.store feedTitle).length = 1 := by
  obtain ⟨r, hr, hrt⟩ := addEntry_created_feed_present env w feedTitle body hok
  rcases addEntry_feedRows env w feedTitle body feedTitle with hsame | ⟨_, _, id, hnew⟩
  · rw [feedRows_eq_nil_of_absent w.store feedTitle habs] at hsame
    exact absurd hrt (absent_of_feedRows_eq_nil _ _ hsame r hr)
  · rw [hnew]; rfl

theorem findFeed_snd (w : World) (title : String) : (findFeed w title).2 = w.nextFault.2 := by
  unfold findFeed
  split
  · rename_i heq; rw [heq]
  · rename_i heq; rw [heq]
    split <;> rfl

theorem nextFault_answered (w : World) (k : Nat) (h : w.answered (k + 1)) :
    w.nextFault.1 = none ∧ w.nextFault.2.answered k := by
  unfold World.answered at h ⊢
  unfold World.nextFault
  split
  · rename_i hf
    refine ⟨rfl, ?_⟩
    intro f hfm
    rw [hf] at hfm
    simp at hfm
  · rename_i f rest hf
    rw [hf] at h
    simp only [List.take_succ_cons, List.mem_cons, forall_eq_or_imp] at h
    exact ⟨h.1, h.2⟩

theorem findFeed_present (w : World) (title : String)
    (hpres : ∃ r ∈ w.store.atom_feed, r.title = title) (hup : w.answered 1) :
    ∃ id, (findFeed w title).1 =
      .ok { Id := some id, Title := some { Type_ := none, Raw := title },
            Entries := [], Namespace := none } := by
  have hs := nextFault_store w
  have hf := nextFault_of_answered w hup
  unfold findFeed
  split
  · rename_i heq
    rw [heq] at hf; simp at hf
  · rename_i w1 heq
    rw [heq] at hs
    simp only at hs
    split
    · rename_i hfind
      rw [hs, List.find?_eq_none] at hfind
      obtain ⟨r, hr, hrt⟩ := hpres
      exact absurd (by simpa using hrt) (hfind r hr)
    · rename_i r _
      exact ⟨r.id, rfl⟩

theorem answered_mono (w : World) {m n : Nat} (hmn : m ≤ n) (h : w.answered n) :
    w.answered m :=
  fun f hf => h f (List.take_subset_take_left w.faults hmn hf)

/-- A listing that the database answers, over rows that scan. -/
theorem appendEntries_ok (w : World) (feed : XMLFeed) (t : XMLTitle) (entries : List XMLEntry)
    (ht : feed.Title = some t) (hup : w.answered 1)
    (hscan : scanRows (entryRows w.store t.Raw) = .ok entries) :
    (appendEntries w feed).1 = .ok { feed with Entries := entries } := by
  have hs := nextFault_store w
  have hf := nextFault_of_answered w hup
  unfold appendEntries
  rw [ht]
  simp only
  split
  · rename_i heq; rw [heq] at hf; simp at hf
  · rename_i heq; rw [heq] at hf; simp at hf
  · rename_i w1 heq
    rw [heq] at hs
    simp only at hs
    unfold entryRows at hscan
    rw [hs, hscan]

/-- A lookup and a listing that the database answers, over rows that scan,
give the `200` feed response. -/
theorem getFeed_ok (w : World) (title : String) (entries : List XMLEntry)
    (hpres : ∃ r ∈ w.store.atom_feed, r.title = title) (hup : w.answered 2)
    (hscan : scanRows (entryRows w.store title) = .ok entries) :
    ∃ id, (getFeed w title).1 =
      .feed 200 feedContentType
        { Id := some id, Title := some { Type_ := none, Raw := title },
          Entries := entries, Namespace := some atomNamespace } := by
  obtain ⟨_, hup1⟩ := nextFault_answered w 1 hup
  obtain ⟨id, hfind⟩ := findFeed_present w title hpres (answered_mono w (by omega) hup)
  have hsnd := findFeed_snd w title
  have hs1 := nextFault_store w
  refine ⟨id, ?_⟩
  unfold getFeed
  split
  · rename_i heq; rw [heq] at hfind; simp at hfind
  · rename_i heq; rw [heq] at hfind; simp at hfind
  · rename_i feed w1 heq
    rw [heq] at hfind hsnd
    simp only [Except.ok.injEq] at hfind hsnd
    subst hfind
    subst hsnd
    have happ := appendEntries_ok w.nextFault.2
      { Id := some id, Title := some { Type_ := none, Raw := title }, Entries := [],
        Namespace := none }
      { Type_ := none, Raw := title } entries rfl hup1
      (by rw [entryRows, hs1]; exact hscan)
    split
    · rename_i heq2; rw [heq2] at happ; simp at happ
    · rename_i heq2; rw [heq2] at happ; simp at happ
    · rename_i feed1 w2 heq2
      rw [heq2] at happ
      simp only [Outcome.ok.injEq] at happ
      subst happ
      rfl

theorem runCalls_adds_rows (env : Env) (feedTitle : String) (bodies : List Body) :
    ∀ w : World,
      (∀ r ∈ (runCalls env w (bodies.map (Call.add feedTitle))).1, r.created = true) →
      ∃ items : List Inserted,
        List.Forall₂ (Inserted.decodedFrom env) bodies items ∧
        (runCalls env w (bodies.map (Call.add feedTitle))).2.store.atom_entry =
          w.store.atom_entry ++ items.map (Inserted.row feedTitle) := by
  induction bodies with
  | nil => intro w _; exact ⟨[], List.Forall₂.nil, by simp [runCalls]⟩
  | cons b rest ih =>
    intro w hok
    rw [List.map_cons, runCalls_cons] at hok ⊢
    simp only [runCall] at hok ⊢
    have hfirst := hok _ (List.mem_cons_self _ _)
    obtain ⟨items, hrel, hrows⟩ := ih (addEntry env w feedTitle b).2
      (fun r hr => hok r (List.mem_cons_of_mem _ hr))
    cases hresp : (addEntry env w feedTitle b).1 with
    | xml status e =>
      obtain ⟨_, hdec, t, c, ht, hc, hnew⟩ := addEntry_created_row env w feedTitle b status e hresp
      refine ⟨⟨"urn:uuid:" ++ env.uuid ((addEntry env w feedTitle b).2.drawn - 1), t, c⟩ :: items,
        List.Forall₂.cons ⟨e, hdec, ht, hc⟩ hrel, ?_⟩
      rw [hrows, hnew]
      simp [Inserted.row]
    | text s m => rw [hresp] at hfirst; simp [Response.created] at hfirst
    | feed s ct f => rw [hresp] at hfirst; simp [Response.created] at hfirst
    | crash => rw [hresp] at hfirst; simp [Response.created] at hfirst

theorem scanRows_inserted (feedTitle : String) (items : List Inserted) :
    scanRows (items.map (Inserted.row feedTitle)) = .ok (items.map Inserted.listed) := by
  induction items with
  | nil => rfl
  | cons i rest ih =>
    simp only [List.map_cons, scanRows, Inserted.row, savedRow] at ih ⊢
    rw [ih]
    rfl

theorem entryRows_inserted (feedTitle : String) (items : List Inserted) :
    (items.map (Inserted.row feedTitle)).filter (fun r => r.feed_title == feedTitle) =
      items.map (Inserted.row feedTitle) := by
  rw [List.filter_eq_self]
  intro r hr
  obtain ⟨i, _, hi⟩ := List.mem_map.mp hr
  subst hi
  simp [Inserted.row, savedRow]

/-- A feed row, once there, is still there after any further calls. -/
theorem runCalls_feed_present (env : Env) (title : String) (calls : List Call) :
    ∀ w : World, (∃ r ∈ w.store.atom_feed, r.title = title) →
      ∃ r ∈ (runCalls env w calls).2.store.atom_feed, r.title = title := by
  induction calls with
  | nil => intro w h; exact h
  | cons c rest ih =>
    intro w h
    rw [runCalls_cons]
    apply ih
    obtain ⟨r, hr, hrt⟩ := h
    cases c with
    | get ft => simp only [runCall]; rw [getFeed_store]; exact ⟨r, hr, hrt⟩
    | add ft body =>
      simp only [runCall]
      rcases addEntry_feeds env w ft body with hsame | ⟨_, id, hnew⟩
      · rw [hsame]; exact ⟨r, hr, hrt⟩
      · rw [hnew]; exact ⟨r, List.mem_append_left _ hr, hrt⟩

theorem step_finished (env : Env) (w : World) (r : Response) (n : Nat) :
    AddTask.run env n w (.finished r) = (.finished r, w) := by
  induction n with
  | zero => rfl
  | succ n ih => simp only [AddTask.run, AddTask.step]; exact ih

/-- Three uninterrupted steps of a fresh task are one call of `addEntry`: the
task steps cut the handler at its database statements and change nothing else. -/
theorem run_begin_eq_addEntry (env : Env) (w : World) (feedTitle : String) (body : Body) :
    AddTask.run env 3 w (.begin feedTitle body) =
      (.finished (addEntry env w feedTitle body).1, (addEntry env w feedTitle body).2) := by
  unfold addEntry insertEntry
  simp only [AddTask.run, AddTask.step]
  cases env.DecodeEntry body with
  | error m => rfl
  | ok entry =>
    simp only
    rcases hfind : findFeed w feedTitle with ⟨r, w1⟩
    cases r with
    | error e =>
      cases e with
      | ErrNoRows =>
        simp only [AddTask.step]
        rcases hins : insertFeed env w1 feedTitle with ⟨⟨id, oe⟩, w2⟩
        cases oe with
        | some e2 => rfl
        | none =>
          simp only [AddTask.step]
          rcases hsave : saveEntry env w2 entry feedTitle with ⟨o, w3⟩
          cases o <;> rfl
      | other m => rfl
    | ok feed =>
      simp only [AddTask.step]
      rcases hsave : saveEntry env w1 entry feedTitle with ⟨o, w3⟩
      cases o <;> rfl

theorem saveEntry_no_panic (env : Env) (w : World) (entry : XMLEntry) (feedTitle : String)
    (ht : entry.Title ≠ none) (hc : entry.Content ≠ none) :
    (saveEntry env w entry feedTitle).1 ≠ .panic := by
  unfold saveEntry
  simp only [genId]
  split
  · rename_i h; exact absurd h ht
  · split
    · rename_i h; exact absurd h hc
    · split
      · simp
      · split <;> simp

theorem insertEntry_no_panic (env : Env) (w : World) (entry : XMLEntry) (feedTitle : String)
    (ht : entry.Title ≠ none) (hc : entry.Content ≠ none) :
    (insertEntry env w entry feedTitle).1 ≠ .panic := by
  unfold insertEntry
  split
  · split
    · simp
    · exact saveEntry_no_panic env _ entry feedTitle ht hc
  · simp
  · exact saveEntry_no_panic env _ entry feedTitle ht hc

/-- The decoder of the specification only returns entries that carry a title
and a content. -/
theorem DecodeEntry_ok_complete (body : Body) (e : XMLEntry) (h : DecodeEntry body = .ok e) :
    e.Title ≠ none ∧ e.Content ≠ none := by
  unfold DecodeEntry at h
  split at h
  · simp at h
  · split at h
    · split at h
      · simp at h
      · simp only [Except.ok.injEq] at h
        subst h
        simp
    · simp at h

theorem DecodeEntry_incomplete (doc : XMLEntry) (h : doc.Title = none ∨ doc.Content = none) :
    DecodeEntry (.entry doc) = .error "missing required element" := by
  unfold DecodeEntry
  simp only
  split
  · rename_i t c ht hc
    rcases h with h | h
    · rw [h] at ht; simp at ht
    · rw [h] at hc; simp at hc
  · rfl

theorem appendEntries_query_failure (w : World) (feed : XMLFeed) (t : XMLTitle) (msg : String)
    (ht : feed.Title = some t) (hf : w.nextFault.1 = some (.onCall msg)) :
    (appendEntries w feed).1 = .panic := by
  unfold appendEntries
  rw [ht]
  simp only
  split
  · rfl
  · rename_i heq; rw [heq] at hf; simp at hf
  · rename_i heq; rw [heq] at hf; simp at hf

/-- When the feed exists and the listing query itself fails, `getFeed` panics. -/
theorem getFeed_query_failure (w : World) (title msg : String) (rest : List (Option Fault))
    (hpres : ∃ r ∈ w.store.atom_feed, r.title = title)
    (hf : w.faults = none :: some (.onCall msg) :: rest) :
    (getFeed w title).1 = .crash := by
  have hup : w.answered 1 := by
    intro f hfm
    rw [hf] at hfm
    simpa using hfm
  obtain ⟨id, hfind⟩ := findFeed_present w title hpres hup
  have hsnd := findFeed_snd w title
  have hnext : w.nextFault.2.nextFault.1 = some (.onCall msg) := by
    simp only [World.nextFault, hf]
  unfold getFeed
  split
  · rename_i heq; rw [heq] at hfind; simp at hfind
  · rename_i heq; rw [heq] at hfind; simp at hfind
  · rename_i feed w1 heq
    rw [heq] at hfind hsnd
    simp only [Except.ok.injEq] at hfind hsnd
    subst hfind
    subst hsnd
    have happ := appendEntries_query_failure w.nextFault.2
      { Id := some id, Title := some { Type_ := none, Raw := title }, Entries := [],
        Namespace := none }
      { Type_ := none, Raw := title } msg rfl hnext
    split
    · rfl
    · rename_i heq2; rw [heq2] at happ; simp at happ
    · rename_i heq2; rw [heq2] at happ; simp at happ

/-- With a decoder that only checks well-formedness, a document without title
reaches `insertEntry`: the feed row is inserted, an id is drawn, and the read
of `entry.Title.Type` panics. The guard against this lives in the decoder alone. -/
theorem addEntry_lenient_decoder_crash :
    addEntry { exampleEnv true with DecodeEntry := lenientDecode } emptyWorld "tech"
        (.entry { Id := none, Title := none,
                  Content := some { Type_ := none, Raw := "World" } }) =
      (.crash,
        { store := { atom_feed := [{ id := "urn:uuid:u0", title := "tech" }], atom_entry := [] },
          drawn := 2, faults := [] }) := by
  decide

theorem interleave_first_runs (env : Env) (n : Nat) (rest : List Bool) :
    ∀ (w : World) (a b : AddTask),
      interleave env (List.replicate n false ++ rest) w a b =
        interleave env rest (AddTask.run env n w a).2 (AddTask.run env n w a).1 b := by
  induction n with
  | zero => intro w a b; rfl
  | succ n ih =>
    intro w a b
    simp only [List.replicate_succ, List.cons_append, interleave, AddTask.run]
    exact ih _ _ _

theorem interleave_second_runs (env : Env) (n : Nat) (rest : List Bool) :
    ∀ (w : World) (a b : AddTask),
      interleave env (List.replicate n true ++ rest) w a b =
        interleave env rest (AddTask.run env n w b).2 a (AddTask.run env n w b).1 := by
  induction n with
  | zero => intro w a b; rfl
  | succ n ih =>
    intro w a b
    simp only [List.replicate_succ, List.cons_append, interleave, AddTask.run]
    exact ih _ _ _

/-- Letting the first request finish before the second starts is serving the
two requests one after the other. -/
theorem interleave_one_after_other (env : Env) (w : World) (t1 t2 : String) (b1 b2 : Body) :
    interleave env [false, false, false, true, true, true] w (.begin t1 b1) (.begin t2 b2) =
      ((.finished (addEntry env w t1 b1).1,
        .finished (addEntry env (addEntry env w t1 b1).2 t2 b2).1),
       (addEntry env (addEntry env w t1 b1).2 t2 b2).2) := by
  have h := interleave_first_runs env 3 (List.replicate 3 true ++ []) w
    (.begin t1 b1) (.begin t2 b2)
  rw [run_begin_eq_addEntry] at h
  have h2 := interleave_second_runs env 3 [] (addEntry env w t1 b1).2
    (.finished (addEntry env w t1 b1).1) (.begin t2 b2)
  rw [run_begin_eq_addEntry] at h2
  exact h.trans h2

/-! ## The claims -/

/-- C1. For a title that has no `atom_feed` row, `getFeed` changes neither
table and draws no id; when the database answers the lookup, the response is
status 404 with body "No such feed". -/
theorem getFeed_absent_title (w : World) (title : String)
    (habsent : ∀ r ∈ w.store.atom_feed, r.title ≠ title) :
    (getFeed w title).2.store = w.store ∧
    (getFeed w title).2.drawn = w.drawn ∧
    (w.answered 1 → (getFeed w title).1 = .text 404 "No such feed") := by
  refine ⟨getFeed_store w title, getFeed_drawn w title, fun hup => ?_⟩
  have h := findFeed_absent w title habsent hup
  unfold getFeed
  split
  · rfl
  · rename_i e w1 hne heq
    rw [heq] at h
    simp only [Except.error.injEq] at h
    exact absurd h hne
  · rename_i heq
    rw [heq] at h; simp at h

/-- Instance for C1: the database of `techWorld` has no feed titled "missing" and
answers the lookup; the response is the 404 and the store is unchanged. -/
theorem getFeed_absent_title_witness :
    (∀ r ∈ techWorld.store.atom_feed, r.title ≠ "missing") ∧ techWorld.answered 1 ∧
    (getFeed techWorld "missing").1 = .text 404 "No such feed" ∧
    (getFeed techWorld "missing").2.store = techWorld.store :=
  ⟨by decide, by decide,
    (getFeed_absent_title techWorld "missing" (by decide)).2.2 (by decide),
    (getFeed_absent_title techWorld "missing" (by decide)).1⟩

/-- C2. When the decoder rejects the request body, `addEntry` answers with
status 400 and leaves the whole world as it was: both tables are unchanged, no
statement is sent to the database and no id is drawn. -/
theorem addEntry_rejected_body (env : Env) (w : World) (feedTitle : String) (body : Body)
    (msg : String) (hrej : env.DecodeEntry body = .error msg) :
    (addEntry env w feedTitle body).1 = .text 400 ("could not parse xml: " ++ msg) ∧
    (addEntry env w feedTitle body).2.store = w.store ∧
    (addEntry env w feedTitle body).2.drawn = w.drawn ∧
    (addEntry env w feedTitle body).2 = w := by
  obtain ⟨hr, hw⟩ := addEntry_rejected env w feedTitle body msg hrej
  exact ⟨hr, by rw [hw], by rw [hw], hw⟩

/-- Instance for C2: a truncated body is rejected by the decoder; the response is
the 400 with the parser's message and the world is unchanged. -/
theorem addEntry_rejected_body_witness :
    (exampleEnv true).DecodeEntry (.malformed "XML syntax error on line 1: unexpected EOF") =
      .error "XML syntax error on line 1: unexpected EOF" ∧
    (addEntry (exampleEnv true) techWorld "newtopic"
        (.malformed "XML syntax error on line 1: unexpected EOF")).1 =
      .text 400 "could not parse xml: XML syntax error on line 1: unexpected EOF" ∧
    (addEntry (exampleEnv true) techWorld "newtopic"
        (.malformed "XML syntax error on line 1: unexpected EOF")).2 = techWorld :=
  ⟨rfl,
    (addEntry_rejected_body (exampleEnv true) techWorld "newtopic"
      (.malformed "XML syntax error on line 1: unexpected EOF")
      "XML syntax error on line 1: unexpected EOF" rfl).1,
    (addEntry_rejected_body (exampleEnv true) techWorld "newtopic"
      (.malformed "XML syntax error on line 1: unexpected EOF")
      "XML syntax error on line 1: unexpected EOF" rfl).2.2.2⟩

/-- C3, refuted as stated. A successful `addEntry` on a document without id:
the `201` response carries an entry whose `Id` is nil, while the row the call
persisted has the generated id "urn:uuid:u1". -/
theorem addEntry_echo_without_generated_id :
    (addEntry (exampleEnv true) emptyWorld "tech" helloBody).1 =
      .xml 201 { Id := none, Title := some { Type_ := some "html", Raw := "Hello" },
                 Content := some { Type_ := some "text", Raw := "World" } } ∧
    (addEntry (exampleEnv true) emptyWorld "tech" helloBody).2.store.atom_entry.map
      (fun r => r.id) = ["urn:uuid:u1"] := by
  decide

/-- C3, as the code has it. A successful `addEntry` echoes the decoded entry
as it is: the `201` response carries the entry the decoder returned, its `Id`
being whatever the request body supplied. The generated id, the last one
drawn, is the id of the `atom_entry` row the call appended. -/
theorem addEntry_created_echo (env : Env) (w : World) (feedTitle : String) (body : Body)
    (status : Nat) (e : XMLEntry) (hok : (addEntry env w feedTitle body).1 = .xml status e) :
    status = 201 ∧ env.DecodeEntry body = .ok e ∧
    ∃ row, (addEntry env w feedTitle body).2.store.atom_entry = w.store.atom_entry ++ [row] ∧
      row.id = "urn:uuid:" ++ env.uuid ((addEntry env w feedTitle body).2.drawn - 1) := by
  obtain ⟨hs, hdec, t, c, _, _, hrows⟩ := addEntry_created_row env w feedTitle body status e hok
  exact ⟨hs, hdec, _, hrows, rfl⟩

/-- Instance for C3: a successful call on `techWorld`; the echo is the decoded
entry, and the appended row has the last id drawn. -/
theorem addEntry_created_echo_witness :
    (addEntry (exampleEnv true) techWorld "tech" byeBody).1 =
      .xml 201 { Id := none, Title := some { Type_ := some "text", Raw := "Bye" },
                 Content := some { Type_ := some "text", Raw := "Moon" } } ∧
    (exampleEnv true).DecodeEntry byeBody =
      .ok { Id := none, Title := some { Type_ := some "text", Raw := "Bye" },
            Content := some { Type_ := some "text", Raw := "Moon" } } ∧
    ∃ row, (addEntry (exampleEnv true) techWorld "tech" byeBody).2.store.atom_entry =
        techWorld.store.atom_entry ++ [row] ∧
      row.id = "urn:uuid:" ++ (exampleEnv true).uuid
        ((addEntry (exampleEnv true) techWorld "tech" byeBody).2.drawn - 1) :=
  ⟨by decide,
    (addEntry_created_echo (exampleEnv true) techWorld "tech" byeBody 201 _ (by decide)).2⟩

/-- C4, refuted as stated. One successful `addEntry` with a title of type
"html" persists that type in the row, and the following `getFeed` lists the
entry with no type on title or content: the listed entry does not match the
inserted one in title type or content type. -/
theorem getFeed_entries_without_types :
    (addEntry (exampleEnv true) emptyWorld "tech" helloBody).1.created = true ∧
    entryRows (addEntry (exampleEnv true) emptyWorld "tech" helloBody).2.store "tech" =
      [{ id := "urn:uuid:u1", feed_title := "tech", title := some "Hello",
         title_type := some "html", content := some "World", content_type := some "text" }] ∧
    (getFeed (addEntry (exampleEnv true) emptyWorld "tech" helloBody).2 "tech").1.entries =
      [{ Id := some "urn:uuid:u1", Title := some { Type_ := none, Raw := "Hello" },
         Content := some { Type_ := none, Raw := "World" } }] ∧
    ¬ (∀ x ∈ (getFeed (addEntry (exampleEnv true) emptyWorld "tech" helloBody).2 "tech").1.entries,
        ∃ r ∈ entryRows (addEntry (exampleEnv true) emptyWorld "tech" helloBody).2.store "tech",
          matchesRow x r = true) := by
  decide

/-- C4, as the code has it. After one or more successful `addEntry` calls on
a title that had no entry rows, a `getFeed` on that title whose two queries
the database answers returns the `200` feed with exactly one entry per call,
in call order: each carries the id of the row persisted for that call and the
raw title and content text of the decoded entry, and no `type` on title or
content (the types are stored in the row and not read back). -/
theorem getFeed_after_adds (env : Env) (w : World) (feedTitle : String) (bodies : List Body)
    (hnone : entryRows w.store feedTitle = []) (hne : bodies ≠ [])
    (hok : ∀ r ∈ (runCalls env w (bodies.map (Call.add feedTitle))).1, r.created = true)
    (hup : (runCalls env w (bodies.map (Call.add feedTitle))).2.answered 2) :
    ∃ (items : List Inserted) (feedId : String),
      items.length = bodies.length ∧
      List.Forall₂ (Inserted.decodedFrom env) bodies items ∧
      entryRows (runCalls env w (bodies.map (Call.add feedTitle))).2.store feedTitle =
        items.map (Inserted.row feedTitle) ∧
      (getFeed (runCalls env w (bodies.map (Call.add feedTitle))).2 feedTitle).1 =
        .feed 200 feedContentType
          { Id := some feedId, Title := some { Type_ := none, Raw := feedTitle },
            Entries := items.map Inserted.listed, Namespace := some atomNamespace } := by
  obtain ⟨items, hrel, hrows⟩ := runCalls_adds_rows env feedTitle bodies w hok
  have hentries : entryRows (runCalls env w (bodies.map (Call.add feedTitle))).2.store feedTitle =
      items.map (Inserted.row feedTitle) := by
    unfold entryRows at hnone ⊢
    rw [hrows, List.filter_append, hnone, entryRows_inserted]
    rfl
  have hpres : ∃ r ∈ (runCalls env w (bodies.map (Call.add feedTitle))).2.store.atom_feed,
      r.title = feedTitle := by
    cases bodies with
    | nil => exact absurd rfl hne
    | cons b rest =>
      rw [List.map_cons, runCalls_cons] at hok ⊢
      apply runCalls_feed_present
      exact addEntry_created_feed_present env w feedTitle b (hok _ (List.mem_cons_self _ _))
  obtain ⟨feedId, hget⟩ := getFeed_ok _ feedTitle (items.map Inserted.listed) hpres hup
    (by rw [hentries]; exact scanRows_inserted feedTitle items)
  exact ⟨items, feedId, hrel.length_eq.symm, hrel, hentries, hget⟩


/-- Instance for C4: two successful calls on the empty database, then `getFeed`. -/
theorem getFeed_after_adds_witness :
    ∃ (items : List Inserted) (feedId : String),
      items.length = [helloBody, byeBody].length ∧
      List.Forall₂ (Inserted.decodedFrom (exampleEnv true)) [helloBody, byeBody] items ∧
      entryRows (runCalls (exampleEnv true) emptyWorld
          ([helloBody, byeBody].map (Call.add "tech"))).2.store "tech" =
        items.map (Inserted.row "tech") ∧
      (getFeed (runCalls (exampleEnv true) emptyWorld
          ([helloBody, byeBody].map (Call.add "tech"))).2 "tech").1 =
        .feed 200 feedContentType
          { Id := some feedId, Title := some { Type_ := none, Raw := "tech" },
            Entries := items.map Inserted.listed, Namespace := some atomNamespace } :=
  getFeed_after_adds (exampleEnv true) emptyWorld "tech" [helloBody, byeBody]
    (by decide) (by decide) (by decide) (by decide)

/-- C5. When `insertEntry` succeeds on an entry with title `t` and content
`c`, the row it appends to `atom_entry` has `feed_title` equal to the requested
feed title, `title` and `content` equal to the raw texts, and `title_type` /
`content_type` equal to the supplied type, or "text" when none was supplied. -/
theorem insertEntry_row_columns (env : Env) (w : World) (entry : XMLEntry) (feedTitle : String)
    (t : XMLTitle) (c : XMLEntryContent)
    (ht : entry.Title = some t) (hc : entry.Content = some c)
    (hok : (insertEntry env w entry feedTitle).1 = .ok ()) :
    ∃ id, (insertEntry env w entry feedTitle).2.store.atom_entry = w.store.atom_entry ++
      [{ id := id, feed_title := feedTitle,
         title := some t.Raw, title_type := some (t.Type_.getD "text"),
         content := some c.Raw, content_type := some (c.Type_.getD "text") }] := by
  rcases (insertEntry_spec env w entry feedTitle).2 with ⟨hne, _⟩ | ⟨_, _, t1, c1, ht1, hc1, hrows⟩
  · exact absurd hok hne
  · rw [ht] at ht1; rw [hc] at hc1
    cases ht1; cases hc1
    exact ⟨_, hrows⟩

/-- Instance for C5: a title without type and a content of type "html". -/
theorem insertEntry_row_columns_witness :
    ∃ id, (insertEntry (exampleEnv true) techWorld
        { Id := none, Title := some { Type_ := none, Raw := "Hi" },
          Content := some { Type_ := some "html", Raw := "<b>x</b>" } } "news").2.store.atom_entry =
      techWorld.store.atom_entry ++
        [{ id := id, feed_title := "news", title := some "Hi", title_type := some "text",
           content := some "<b>x</b>", content_type := some "html" }] :=
  insertEntry_row_columns (exampleEnv true) techWorld
    { Id := none, Title := some { Type_ := none, Raw := "Hi" },
      Content := some { Type_ := some "html", Raw := "<b>x</b>" } } "news"
    { Type_ := none, Raw := "Hi" } { Type_ := some "html", Raw := "<b>x</b>" } rfl rfl (by decide)

/-- C6. Starting from a store with at most one `atom_feed` row per title,
every finite sequence of sequential `getFeed` and `addEntry` calls ends in a
store with at most one row per title; and one or more successful `addEntry`
calls on a title that had no row leave exactly one row with that title. -/
theorem sequential_calls_titles_unique (env : Env) (w : World) (hinv : TitlesUnique w.store) :
    (∀ calls : List Call, TitlesUnique (runCalls env w calls).2.store) ∧
    (∀ (feedTitle : String) (bodies : List Body), bodies ≠ [] →
      (∀ r ∈ w.store.atom_feed, r.title ≠ feedTitle) →
      (∀ r ∈ (runCalls env w (bodies.map (Call.add feedTitle))).1, r.created = true) →
      (feedRows (runCalls env w (bodies.map (Call.add feedTitle))).2.store feedTitle).length = 1) := by
  refine ⟨fun calls => runCalls_titlesUnique env calls w hinv, ?_⟩
  intro feedTitle bodies hne habs hok
  cases bodies with
  | nil => exact absurd rfl hne
  | cons b rest =>
    rw [List.map_cons, runCalls_cons] at hok ⊢
    apply runCalls_add_keeps_one
    exact addEntry_created_first env w feedTitle b habs (hok _ (List.mem_cons_self _ _))


/-- Instance for C6: a mixed sequence of calls on `techWorld`, and two successful
calls on the new title "news". -/
theorem sequential_calls_titles_unique_witness :
    TitlesUnique (runCalls (exampleEnv false) techWorld
      [.add "news" helloBody, .get "news", .add "tech" byeBody, .add "news" (.malformed "eof"),
        .add "news" byeBody]).2.store ∧
    (feedRows (runCalls (exampleEnv false) techWorld
      ([helloBody, byeBody].map (Call.add "news"))).2.store "news").length = 1 :=
  ⟨(sequential_calls_titles_unique (exampleEnv false) techWorld
      (by intro title; unfold feedRows; simp only [techWorld, List.filter_cons]; split <;> simp)).1 _,
    (sequential_calls_titles_unique (exampleEnv false) techWorld
      (by intro title; unfold feedRows; simp only [techWorld, List.filter_cons]; split <;> simp)).2
      "news" [helloBody, byeBody] (by decide) (by decide) (by decide)⟩

/-- C7, refuted as stated. On the empty database, with the driver failing the
third statement (the entry insert), `addEntry` answers 500 and the feed row it
created stays in `atom_feed`: the store after the call differs from the store
before it. -/
theorem addEntry_failed_insert_leaves_feed :
    addEntry (exampleEnv true) flakyWorld "tech" helloBody =
      (.text 500 "failed to save entry: connection reset",
        { store := { atom_feed := [{ id := "urn:uuid:u0", title := "tech" }], atom_entry := [] },
          drawn := 2, faults := [] }) ∧
    (addEntry (exampleEnv true) flakyWorld "tech" helloBody).2.store ≠ flakyWorld.store := by
  decide

/-- C7, as the code has it. When `addEntry` ends with status 400 the world is
unchanged. When it ends with status 500, `atom_entry` is unchanged and
`atom_feed` is either unchanged or has gained one row for the requested title,
which had none before: the feed insert is not undone when the entry insert
fails. -/
theorem addEntry_failure_effect (env : Env) (w : World) (feedTitle : String) (body : Body)
    (hfail : (addEntry env w feedTitle body).1.status = some 400 ∨
      (addEntry env w feedTitle body).1.status = some 500) :
    ((addEntry env w feedTitle body).1.status = some 400 → (addEntry env w feedTitle body).2 = w) ∧
    (addEntry env w feedTitle body).2.store.atom_entry = w.store.atom_entry ∧
    ((addEntry env w feedTitle body).2.store.atom_feed = w.store.atom_feed ∨
      ((∀ r ∈ w.store.atom_feed, r.title ≠ feedTitle) ∧
        ∃ id, (addEntry env w feedTitle body).2.store.atom_feed =
          w.store.atom_feed ++ [{ id := id, title := feedTitle }])) := by
  cases hdec : env.DecodeEntry body with
  | error m =>
    obtain ⟨_, hw⟩ := addEntry_rejected env w feedTitle body m hdec
    rw [hw]
    exact ⟨fun _ => rfl, rfl, Or.inl rfl⟩
  | ok entry =>
    obtain ⟨hw, hr⟩ := addEntry_decoded env w feedTitle body entry hdec
    obtain ⟨hfeeds, hentries⟩ := insertEntry_spec env w entry feedTitle
    rw [hr] at hfail ⊢
    rw [hw]
    refine ⟨?_, ?_, ?_⟩
    · intro h4
      split at h4 <;> simp [Response.status] at h4
    · rcases hentries with ⟨_, hsame⟩ | ⟨hok, _⟩
      · exact hsame
      · rw [hok] at hfail
        simp [Response.status] at hfail
    · rcases hfeeds with hsame | ⟨habs, hnew⟩
      · exact Or.inl hsame
      · exact Or.inr ⟨habs, _, hnew⟩

/-- Instance for C7: the entry insert fails on `flakyWorld`; the response is 500,
`atom_entry` is unchanged and `atom_feed` has gained the row for "tech". -/
theorem addEntry_failure_effect_witness :
    (addEntry (exampleEnv true) flakyWorld "tech" helloBody).1.status = some 500 ∧
    (addEntry (exampleEnv true) flakyWorld "tech" helloBody).2.store.atom_entry =
      flakyWorld.store.atom_entry ∧
    ((addEntry (exampleEnv true) flakyWorld "tech" helloBody).2.store.atom_feed =
        flakyWorld.store.atom_feed ∨
      ((∀ r ∈ flakyWorld.store.atom_feed, r.title ≠ "tech") ∧
        ∃ id, (addEntry (exampleEnv true) flakyWorld "tech" helloBody).2.store.atom_feed =
          flakyWorld.store.atom_feed ++ [{ id := id, title := "tech" }])) :=
  ⟨by decide,
    (addEntry_failure_effect (exampleEnv true) flakyWorld "tech" helloBody
      (Or.inr (by decide))).2⟩

/-- C8, on the code. With the feed "tech" present: a failed lookup answers
500 and a failure while reading the listed rows answers 500, but a failure of
the listing query itself makes `getFeed` panic in the deferred `rows.Close()`
on the nil `rows`, so the handler ends without a response. -/
theorem getFeed_listing_query_failure_crashes :
    (getFeed { techWorld with faults := [some (.onCall "connection refused")] } "tech").1 =
      .text 500 "Failed to get feed: connection refused" ∧
    (getFeed { techWorld with faults := [none, some (.onRows "unexpected EOF")] } "tech").1 =
      .text 500 "Failed to construct feed: unexpected EOF" ∧
    (getFeed { techWorld with faults := [none, some (.onCall "connection refused")] } "tech").1 =
      .crash ∧
    (getFeed { techWorld with faults := [none, some (.onCall "connection refused")] }
      "tech").1.status = none := by
  decide

/-- C9. With the decoder of the specification, a request body that is an
entry document without a title element or without a content element gets
status 400 and the world is left as it was (no feed row, no entry row, no id);
every entry the decoder hands to `insertEntry` carries a title and a content;
and `addEntry` never panics. -/
theorem addEntry_incomplete_document_rejected (env : Env) (hdec : env.DecodeEntry = DecodeEntry) :
    (∀ (w : World) (feedTitle : String) (doc : XMLEntry),
      doc.Title = none ∨ doc.Content = none →
        (addEntry env w feedTitle (.entry doc)).1.status = some 400 ∧
        (addEntry env w feedTitle (.entry doc)).2 = w) ∧
    (∀ (body : Body) (e : XMLEntry), env.DecodeEntry body = .ok e →
      e.Title ≠ none ∧ e.Content ≠ none) ∧
    (∀ (w : World) (feedTitle : String) (body : Body),
      (addEntry env w feedTitle body).1 ≠ .crash) := by
  refine ⟨?_, ?_, ?_⟩
  · intro w feedTitle doc hdoc
    have hrej : env.DecodeEntry (.entry doc) = .error "missing required element" := by
      rw [hdec]; exact DecodeEntry_incomplete doc hdoc
    obtain ⟨hr, hw⟩ := addEntry_rejected env w feedTitle (.entry doc) _ hrej
    exact ⟨by rw [hr]; rfl, hw⟩
  · intro body e h
    rw [hdec] at h
    exact DecodeEntry_ok_complete body e h
  · intro w feedTitle body
    cases hd : env.DecodeEntry body with
    | error m =>
      rw [(addEntry_rejected env w feedTitle body m hd).1]
      simp
    | ok entry =>
      have hc : entry.Title ≠ none ∧ entry.Content ≠ none := by
        rw [hdec] at hd
        exact DecodeEntry_ok_complete body entry hd
      have hnp := insertEntry_no_panic env w entry feedTitle hc.1 hc.2
      rw [(addEntry_decoded env w feedTitle body entry hd).2]
      split
      · simp
      · rename_i h; exact absurd h hnp
      · simp

/-- Instance for C9: a document without title element, decoded by the decoder of
the specification. -/
theorem addEntry_incomplete_document_rejected_witness :
    (addEntry (exampleEnv true) techWorld "newtopic"
        (.entry { Id := none, Title := none,
                  Content := some { Type_ := none, Raw := "World" } })).1.status = some 400 ∧
    (addEntry (exampleEnv true) techWorld "newtopic"
        (.entry { Id := none, Title := none,
                  Content := some { Type_ := none, Raw := "World" } })).2 = techWorld :=
  (addEntry_incomplete_document_rejected (exampleEnv true) rfl).1 techWorld "newtopic"
    { Id := none, Title := none, Content := some { Type_ := none, Raw := "World" } }
    (Or.inl rfl)

/-- C10, on the code. Two `addEntry` requests on the new title "brandnew"
whose feed lookups both run before either feed insert. With a unique title
the second feed insert is refused: one call answers 201, the other 500, and
one entry is stored. Without the constraint both calls answer 201 and
`atom_feed` holds two rows with the title. -/
theorem concurrent_adds_race :
    (interleave (exampleEnv true) [false, true, false, true, false, true] emptyWorld
        (.begin "brandnew" helloBody) (.begin "brandnew" byeBody)).1 =
      (.finished (.xml 201 { Id := none, Title := some { Type_ := some "html", Raw := "Hello" },
                             Content := some { Type_ := some "text", Raw := "World" } }),
       .finished (.text 500
         "failed to save entry: pq: duplicate key value violates unique constraint")) ∧
    (entryRows (interleave (exampleEnv true) [false, true, false, true, false, true] emptyWorld
        (.begin "brandnew" helloBody) (.begin "brandnew" byeBody)).2.store "brandnew").length
      = 1 ∧
    (interleave (exampleEnv false) [false, true, false, true, false, true] emptyWorld
        (.begin "brandnew" helloBody) (.begin "brandnew" byeBody)).1 =
      (.finished (.xml 201 { Id := none, Title := some { Type_ := some "html", Raw := "Hello" },
                             Content := some { Type_ := some "text", Raw := "World" } }),
       .finished (.xml 201 { Id := none, Title := some { Type_ := some "text", Raw := "Bye" },
                             Content := some { Type_ := some "text", Raw := "Moon" } })) ∧
    feedRows (interleave (exampleEnv false) [false, true, false, true, false, true] emptyWorld
        (.begin "brandnew" helloBody) (.begin "brandnew" byeBody)).2.store "brandnew" =
      [{ id := "urn:uuid:u0", title := "brandnew" }, { id := "urn:uuid:u1", title := "brandnew" }] := by
  decide

end AtomPub
